import Mathlib

/-!
Shallow embedding of the Device-Flow Auth Manager of `src/auth.rs`
(struct `AuthClient`: `authenticate`, `get_access_token`, `refresh_token`,
`is_token_valid`, `load_token`, `save_token`) together with the data model
(`TokenData`, `DeviceCodeResponse`, `TokenPollResponse`).

Modelling conventions:
  * Machine integers (`u64`) are `Nat`; no arithmetic in the source can
    overflow in practice and none of the claims concern overflow.
  * Time is a single monotone clock in seconds.  The source uses
    `Instant::now()` for the poll-loop deadline and `SystemTime::now()`
    for epoch timestamps; both advance identically, so one clock `now`
    serves for both, starting at `startTime`.  The clock advances exactly
    by the durations slept (`tokio::time::sleep`).
  * Network I/O is scripted by an environment `AuthEnv`: each HTTP
    interaction of the source is a field holding the (parsed) response,
    with `none` standing for the transport / JSON failures that the
    source propagates with `?`.
  * A single `get_access_token` call can issue up to two authenticated
    probe GETs — one inside its own validity check and one inside the
    re-check of the nested `authenticate` — and they are independent
    HTTP interactions: `probes k` scripts the outcome of the k-th probe
    GET actually issued during the call, and `is_token_valid` issues its
    probe only when the timestamp check passes (`probeIssued`).
  * `fs` effects are made explicit: the result of `load_token` is the
    `loadResult` field (`none` = any read or parse failure, which the
    source surfaces as `Err`), and `save_token` is recorded in a `writes`
    ledger (the list of `TokenData` values persisted, in order).
  * Every OAuth-endpoint HTTP request made is recorded in a `calls`
    ledger (`NetCall`), so that "no network call" claims are statable.
-/

/-- Struct `TokenData` of `src/auth.rs` (the persisted token record). -/
structure TokenData where
  access_token : String
  refresh_token : Option String
  expires_at : Option Nat
deriving Repr, DecidableEq

/-- Struct `DeviceCodeResponse` of `src/auth.rs` (parsed device-code endpoint reply). -/
structure DeviceCodeResponse where
  device_code : String
  user_code : String
  verification_url : String
  verification_url_complete : Option String
  expires_in : Nat
  interval : Nat
deriving Repr, DecidableEq

/-- Struct `TokenPollResponse` of `src/auth.rs` (parsed token-endpoint poll reply). -/
structure TokenPollResponse where
  access_token : Option String
  refresh_token : Option String
  expires_in : Option Nat
  error : Option String
deriving Repr, DecidableEq

/-- Parsed reply of the refresh POST in `AuthClient::refresh_token`.  The
source parses the body as a JSON value and reads only `access_token` and
`expires_in`; the `refresh_token` field models a reissued token possibly
present in the body, which the source never reads. -/
structure RefreshResponse where
  status : Nat
  access_token : Option String
  refresh_token : Option String
  expires_in : Option Nat
deriving Repr, DecidableEq

/-- The OAuth-endpoint HTTP requests the manager can make. -/
inductive NetCall where
  | deviceCode
  | tokenPoll
  | tokenRefresh
deriving Repr, DecidableEq

/-- Outcomes of `authenticate` / `get_access_token` (`anyhow` errors split
by the message the source attaches). -/
inductive AuthResult where
  | ok (access_token : String)
  | errDeviceCodeRequestFailed
  | errDeviceCodeExpired
  | errAuthorizationDenied (msg : String)
  | errTransport
deriving Repr, DecidableEq

/-- Result of one run: outcome, sleeps performed (in order, seconds),
token records persisted (in order), OAuth-endpoint calls made (in order). -/
structure FlowResult where
  result : AuthResult
  sleeps : List Nat
  writes : List TokenData
  calls : List NetCall
deriving Repr, DecidableEq

/-- Scripted environment for one `authenticate` / `get_access_token` call.
`probes k` is the outcome of the k-th authenticated probe GET actually
issued during the call (`none` = transport error): successive probe GETs
are independent requests and may have different outcomes. -/
structure AuthEnv where
  loadResult : Option TokenData
  probes : Nat → Option Nat
  refreshResp : Option RefreshResponse
  deviceResp : Option DeviceCodeResponse
  pollScript : List (Option TokenPollResponse)
  startTime : Nat

/-- Predicate `reqwest::StatusCode::is_success`: 2xx. -/
def isSuccessStatus (s : Nat) : Bool := 200 ≤ s && s < 300

/-- Outcome of the probe GET inside `is_token_valid`:
`matches!(response, Ok(r) if r.status().is_success())`. -/
def probeSucceeds : Option Nat → Bool
  | some s => isSuccessStatus s
  | none => false

/-- Model of `AuthClient::is_token_valid`: reject when `now >= expires_at`
(when present), otherwise the result of the authenticated probe request. -/
def is_token_valid (now : Nat) (probeStatus : Option Nat) (token : TokenData) : Bool :=
  match token.expires_at with
  | some expires_at =>
    if now ≥ expires_at then false else probeSucceeds probeStatus
  | none => probeSucceeds probeStatus

/-- Whether one `is_token_valid` invocation actually issues its probe GET:
the source returns `false` on `now >= expires_at` before any request, so
the probe request is made exactly when the timestamp check passes. -/
def probeIssued (now : Nat) (token : TokenData) : Bool :=
  match token.expires_at with
  | some expires_at => decide (now < expires_at)
  | none => true

/-- How many probe GETs one `is_token_valid` invocation issued. -/
def probesUsed (now : Nat) (token : TokenData) : Nat :=
  if probeIssued now token then 1 else 0

/-- Prefix a poll iteration (one sleep of the interval, one token POST)
onto the result of the rest of the loop. -/
def prependPoll (interval : Nat) (fr : FlowResult) : FlowResult :=
  ⟨fr.result, interval :: fr.sleeps, fr.writes, NetCall.tokenPoll :: fr.calls⟩

/-- Prefix a poll iteration that hit `slow_down` (the interval sleep, the
token POST, then the extra `poll_interval * 2` sleep of line 139). -/
def prependSlow (interval : Nat) (fr : FlowResult) : FlowResult :=
  ⟨fr.result, interval :: 2 * interval :: fr.sleeps, fr.writes, NetCall.tokenPoll :: fr.calls⟩

/-- The poll loop of `AuthClient::authenticate` (lines 110-167).  Each
iteration: deadline check, sleep `interval`, POST, then dispatch on the
parsed `TokenPollResponse`.  The scripted responses play the successive
replies (`none` = transport/JSON failure, propagated by `?`); `none` as
the overall result means the script was exhausted with the loop still
running (the source would keep polling). -/
def pollLoop (interval deadline : Nat) : Nat → List (Option TokenPollResponse) → Option FlowResult
  | now, script =>
    if now > deadline then
      some ⟨AuthResult.errDeviceCodeExpired, [], [], []⟩
    else
      match script with
      | [] => none
      | none :: _ => some ⟨AuthResult.errTransport, [interval], [], [NetCall.tokenPoll]⟩
      | some r :: rest =>
        match r.error with
        | some e =>
          if e = "authorization_pending" then
            (pollLoop interval deadline (now + interval) rest).map (prependPoll interval)
          else if e = "slow_down" then
            (pollLoop interval deadline (now + interval + 2 * interval) rest).map
              (prependSlow interval)
          else
            some ⟨AuthResult.errAuthorizationDenied e, [interval], [], [NetCall.tokenPoll]⟩
        | none =>
          match r.access_token with
          | some tk =>
            some ⟨AuthResult.ok tk, [interval],
              [⟨tk, r.refresh_token, r.expires_in.map (fun d => now + interval + d)⟩],
              [NetCall.tokenPoll]⟩
          | none => (pollLoop interval deadline (now + interval) rest).map (prependPoll interval)

/-- The device flow proper of `AuthClient::authenticate` (lines 72-167):
the device-code POST, then the poll loop with
`deadline = now + expires_in` and the returned `interval`. -/
def authenticateFlow (env : AuthEnv) : Option FlowResult :=
  match env.deviceResp with
  | none => some ⟨AuthResult.errDeviceCodeRequestFailed, [], [], [NetCall.deviceCode]⟩
  | some d =>
    (pollLoop d.interval (env.startTime + d.expires_in) env.startTime env.pollScript).map
      (fun fr => ⟨fr.result, fr.sleeps, fr.writes, NetCall.deviceCode :: fr.calls⟩)

/-- Model of `AuthClient::authenticate` (lines 60-168) started after `k`
probe GETs have already been issued in the surrounding call: first the
cached-token early return (lines 62-66, which re-reads the unchanged file
and probes afresh at index `k`), then the device flow. -/
def authenticateAt (env : AuthEnv) (k : Nat) : Option FlowResult :=
  match env.loadResult with
  | some token =>
    if is_token_valid env.startTime (env.probes k) token then
      some ⟨AuthResult.ok token.access_token, [], [], []⟩
    else
      authenticateFlow env
  | none => authenticateFlow env

/-- Model of `AuthClient::authenticate` called as the entrypoint: no probe
GET has been issued yet, so its validity re-check probes at index 0. -/
def authenticate (env : AuthEnv) : Option FlowResult :=
  authenticateAt env 0

/-- Model of `AuthClient::refresh_token` (lines 227-264): POST, fail on non-2xx or
missing `access_token`, otherwise build a record reusing the refresh token
that was sent (`refresh_token: Some(refresh_token.to_string())`).
`none` models any `Err` (transport, status, parse); `some` carries the
record that is both persisted and returned. -/
def refresh_token (now : Nat) (resp : Option RefreshResponse) (rt : String) : Option TokenData :=
  match resp with
  | none => none
  | some r =>
    if isSuccessStatus r.status then
      match r.access_token with
      | some tk => some ⟨tk, some rt, r.expires_in.map (fun d => now + d)⟩
      | none => none
    else
      none

/-- Model of `AuthClient::get_access_token` (lines 209-225): reuse a valid cached
token; else try a refresh when a refresh token exists; else re-run
`authenticate`. -/
def get_access_token (env : AuthEnv) : Option FlowResult :=
  match env.loadResult with
  | some token =>
    if is_token_valid env.startTime (env.probes 0) token then
      some ⟨AuthResult.ok token.access_token, [], [], []⟩
    else
      match token.refresh_token with
      | some rt =>
        match refresh_token env.startTime env.refreshResp rt with
        | some nt => some ⟨AuthResult.ok nt.access_token, [], [nt], [NetCall.tokenRefresh]⟩
        | none =>
          (authenticateAt env (probesUsed env.startTime token)).map
            (fun fr => ⟨fr.result, fr.sleeps, fr.writes, NetCall.tokenRefresh :: fr.calls⟩)
      | none => authenticateAt env (probesUsed env.startTime token)
  | none => authenticateAt env 0

/-- The poll response `error = "authorization_pending"` with no other field. -/
def pendingResp : TokenPollResponse := ⟨none, none, none, some "authorization_pending"⟩

/-- The poll response `error = "slow_down"` with no other field. -/
def slowDownResp : TokenPollResponse := ⟨none, none, none, some "slow_down"⟩

/-- A grant response carrying only an access token. -/
def grantResp (tk : String) : TokenPollResponse := ⟨some tk, none, none, none⟩


/-! ### Step lemmas for the poll loop -/

theorem pollLoop_deadline (interval deadline now : Nat)
    (script : List (Option TokenPollResponse)) (h : now > deadline) :
    pollLoop interval deadline now script =
      some ⟨AuthResult.errDeviceCodeExpired, [], [], []⟩ := by
  rw [pollLoop.eq_def]
  simp [h]

theorem pollLoop_pending (interval deadline now : Nat) (r : TokenPollResponse)
    (rest : List (Option TokenPollResponse))
    (h : ¬ now > deadline) (he : r.error = some "authorization_pending") :
    pollLoop interval deadline now (some r :: rest) =
      (pollLoop interval deadline (now + interval) rest).map (prependPoll interval) := by
  rw [pollLoop.eq_def]
  simp [h, he]

theorem pollLoop_slow (interval deadline now : Nat) (r : TokenPollResponse)
    (rest : List (Option TokenPollResponse))
    (h : ¬ now > deadline) (he : r.error = some "slow_down") :
    pollLoop interval deadline now (some r :: rest) =
      (pollLoop interval deadline (now + interval + 2 * interval) rest).map
        (prependSlow interval) := by
  rw [pollLoop.eq_def]
  simp [h, he]

theorem pollLoop_grant (interval deadline now : Nat) (r : TokenPollResponse)
    (rest : List (Option TokenPollResponse)) (tk : String)
    (h : ¬ now > deadline) (he : r.error = none) (ha : r.access_token = some tk) :
    pollLoop interval deadline now (some r :: rest) =
      some ⟨AuthResult.ok tk, [interval],
        [⟨tk, r.refresh_token, r.expires_in.map (fun d => now + interval + d)⟩],
        [NetCall.tokenPoll]⟩ := by
  rw [pollLoop.eq_def]
  simp [h, he, ha]

/-! ### Further helper lemmas and concrete environments -/

theorem authenticateAt_eq_flow_of_invalid (env : AuthEnv) (t : TokenData) (k : Nat)
    (h : env.loadResult = some t)
    (hv : is_token_valid env.startTime (env.probes k) t = false) :
    authenticateAt env k = authenticateFlow env := by
  simp [authenticateAt, h, hv]

theorem authenticateAt_eq_flow_of_noload (env : AuthEnv) (k : Nat)
    (h : env.loadResult = none) :
    authenticateAt env k = authenticateFlow env := by
  simp [authenticateAt, h]

theorem authenticateAt_cached (env : AuthEnv) (t : TokenData) (k : Nat)
    (h : env.loadResult = some t)
    (hv : is_token_valid env.startTime (env.probes k) t = true) :
    authenticateAt env k = some ⟨AuthResult.ok t.access_token, [], [], []⟩ := by
  simp [authenticateAt, h, hv]

theorem authenticate_eq_flow_of_invalid (env : AuthEnv) (t : TokenData)
    (h : env.loadResult = some t)
    (hv : is_token_valid env.startTime (env.probes 0) t = false) :
    authenticate env = authenticateFlow env :=
  authenticateAt_eq_flow_of_invalid env t 0 h hv

theorem authenticate_eq_flow_of_noload (env : AuthEnv) (h : env.loadResult = none) :
    authenticate env = authenticateFlow env :=
  authenticateAt_eq_flow_of_noload env 0 h

/-- When the timestamp check already rejects (so no probe GET is issued),
`is_token_valid` is false whatever outcome any probe would have had. -/
theorem is_token_valid_of_not_issued (now : Nat) (p : Option Nat) (t : TokenData)
    (h : probeIssued now t = false) : is_token_valid now p t = false := by
  cases he : t.expires_at with
  | none => simp [probeIssued, he] at h
  | some e =>
    simp only [probeIssued, he, decide_eq_false_iff_not, Nat.not_lt] at h
    simp [is_token_valid, he, h]

/-- The scripted response sequence
`[pending, pending, slow_down, pending, granted]` of the spec's back-off
property, granting access token "tok". -/
def scriptPPSPG : List (Option TokenPollResponse) :=
  [some pendingResp, some pendingResp, some slowDownResp, some pendingResp,
   some (grantResp "tok")]

/-- The claim's "sequence of sleep durations is non-decreasing" predicate. -/
def nonDecreasing : List Nat → Bool
  | a :: b :: rest => decide (a ≤ b) && nonDecreasing (b :: rest)
  | _ => true

/-- Environment: no cached token, device code granted with interval 5 and
a generous expiry, poll responses scripted as `scriptPPSPG`. -/
def envBackoff : AuthEnv :=
  ⟨none, fun _ => none, none, some ⟨"dc", "uc", "url", none, 1000, 5⟩, scriptPPSPG, 0⟩

/-- Claim C1 is false on the code: for the scripted sequence
`[pending, pending, slow_down, pending, granted]` with interval 5 the
recorded sleeps are `[5, 5, 5, 10, 5, 5]` — the `slow_down` reply causes a
single extra sleep of twice the interval (line 139 of `auth.rs`), after
which polling resumes at the original interval, so the sleep sequence is
not non-decreasing and the interval does not stay doubled. -/
theorem claim1_counterexample :
    authenticate envBackoff =
      some ⟨AuthResult.ok "tok", [5, 5, 5, 10, 5, 5], [⟨"tok", none, none⟩],
        [NetCall.deviceCode, NetCall.tokenPoll, NetCall.tokenPoll, NetCall.tokenPoll,
         NetCall.tokenPoll, NetCall.tokenPoll]⟩ ∧
    nonDecreasing [5, 5, 5, 10, 5, 5] = false := by
  exact ⟨rfl, rfl⟩

/-- Claim C1 amended: the poll-interval variable is never changed; a
`slow_down` response causes exactly one additional sleep of twice the
interval immediately after it, and every other sleep is the original
interval.  For the scripted sequence
`[pending, pending, slow_down, pending, granted]` with interval `I` and a
deadline that is not hit, the recorded sleeps are `[I, I, I, 2*I, I, I]`. -/
theorem claim1_amended (I E : Nat) (h : 6 * I ≤ E) :
    pollLoop I E 0 scriptPPSPG =
      some ⟨AuthResult.ok "tok", [I, I, I, 2 * I, I, I], [⟨"tok", none, none⟩],
        [NetCall.tokenPoll, NetCall.tokenPoll, NetCall.tokenPoll, NetCall.tokenPoll,
         NetCall.tokenPoll]⟩ := by
  simp only [scriptPPSPG]
  rw [pollLoop_pending _ _ _ _ _ (by omega) rfl,
      pollLoop_pending _ _ _ _ _ (by omega) rfl,
      pollLoop_slow _ _ _ _ _ (by omega) rfl,
      pollLoop_pending _ _ _ _ _ (by omega) rfl,
      pollLoop_grant _ _ _ _ _ _ (by omega) rfl rfl]
  simp [prependPoll, prependSlow, grantResp]

/-- Witness for `claim1_amended` at `I = 5`, `E = 1000`. -/
theorem claim1_amended_witness :
    pollLoop 5 1000 0 scriptPPSPG =
      some ⟨AuthResult.ok "tok", [5, 5, 5, 10, 5, 5], [⟨"tok", none, none⟩],
        [NetCall.tokenPoll, NetCall.tokenPoll, NetCall.tokenPoll, NetCall.tokenPoll,
         NetCall.tokenPoll]⟩ :=
  claim1_amended 5 1000 (by decide)

/-- Environment: a cached record with no expiry and a 2xx probe, with a
device flow also scripted (it is never reached). -/
def envCached : AuthEnv :=
  ⟨some ⟨"cached", none, none⟩, fun _ => some 200, none,
   some ⟨"dc", "uc", "url", none, 1000, 5⟩, [some (grantResp "fresh")], 0⟩

/-- Claim C2 is false on the code: `authenticate` (lines 62-66 of
`auth.rs`) first loads the persisted record and, when `is_token_valid`
accepts it, returns its access token with no device-code request and no
poll — here the call ledger is empty, refuting "always performs the
device-code request and the poll loop". -/
theorem claim2_counterexample :
    authenticate envCached = some ⟨AuthResult.ok "cached", [], [], []⟩ ∧
    (authenticate envCached).map FlowResult.calls = some [] := by
  exact ⟨rfl, rfl⟩

/-- Claim C2 amended: `authenticate` first checks for a persisted valid
token and returns it with no OAuth-endpoint call when the check passes;
in every other case it runs the full device flow (device-code request
plus poll loop). -/
theorem claim2_amended (env : AuthEnv) :
    (∃ t, env.loadResult = some t ∧
        is_token_valid env.startTime (env.probes 0) t = true ∧
        authenticate env = some ⟨AuthResult.ok t.access_token, [], [], []⟩) ∨
      authenticate env = authenticateFlow env := by
  cases h : env.loadResult with
  | none => exact Or.inr (authenticate_eq_flow_of_noload env h)
  | some t =>
    cases hv : is_token_valid env.startTime (env.probes 0) t with
    | true => exact Or.inl ⟨t, rfl, hv, by simp [authenticate, authenticateAt, h, hv]⟩
    | false => exact Or.inr (authenticate_eq_flow_of_invalid env t h hv)

/-- Any record produced by `refresh_token` carries the refresh token that
was sent in the request, whatever the response body contained
(`refresh_token: Some(refresh_token.to_string())`, line 253 of `auth.rs`). -/
theorem refresh_token_reuses (now : Nat) (resp : Option RefreshResponse) (rt : String)
    (nt : TokenData) (h : refresh_token now resp rt = some nt) :
    nt.refresh_token = some rt := by
  cases resp with
  | none => simp [refresh_token] at h
  | some r =>
    simp only [refresh_token] at h
    by_cases hs : isSuccessStatus r.status = true
    · rw [if_pos hs] at h
      cases ha : r.access_token with
      | none => rw [ha] at h; cases h
      | some tk => rw [ha] at h; cases h; rfl
    · rw [if_neg hs] at h
      cases h

/-- Claim C3: a successful refresh persists exactly one record, whose
refresh_token equals the refresh token used to make the request — the
response body's (possibly absent) refresh_token is never consulted. -/
theorem claim3_refresh_reuse (env : AuthEnv) (t nt : TokenData) (rt : String)
    (hl : env.loadResult = some t)
    (hv : is_token_valid env.startTime (env.probes 0) t = false)
    (hrt : t.refresh_token = some rt)
    (hok : refresh_token env.startTime env.refreshResp rt = some nt) :
    get_access_token env =
      some ⟨AuthResult.ok nt.access_token, [], [nt], [NetCall.tokenRefresh]⟩ ∧
    nt.refresh_token = some rt :=
  ⟨by simp [get_access_token, hl, hv, hrt, hok],
   refresh_token_reuses env.startTime env.refreshResp rt nt hok⟩

/-- Environment: expired cached record with refresh token "r"; the
refresh response reissues no refresh token. -/
def envRefresh : AuthEnv :=
  ⟨some ⟨"old", some "r", some 10⟩, fun _ => some 200,
   some ⟨200, some "newat", none, some 3600⟩, none, [], 50⟩

/-- Witness for `claim3_refresh_reuse` on `envRefresh`. -/
theorem claim3_witness :
    get_access_token envRefresh =
      some ⟨AuthResult.ok "newat", [], [⟨"newat", some "r", some 3650⟩],
        [NetCall.tokenRefresh]⟩ ∧
    (TokenData.mk "newat" (some "r") (some 3650)).refresh_token = some "r" :=
  claim3_refresh_reuse envRefresh ⟨"old", some "r", some 10⟩
    ⟨"newat", some "r", some 3650⟩ "r" rfl (by decide) rfl (by decide)

/-- The three-step fallback of `get_access_token`, transcribed from the
spec's public contract (§4.1): (1) a persisted record that passes the
validity check (one probe GET) is returned as-is with no OAuth-endpoint
call; (2) else, with a refresh token present, a refresh is attempted and
its record persisted and returned on success; (3) else — no record, or
refresh failed — fall through to the full device flow (the spec's
`authenticate()` runs the device flow unconditionally, so step 3 issues
no second probe GET: it is the flow itself). -/
def getAccessTokenSpec (env : AuthEnv) : Option FlowResult :=
  match env.loadResult with
  | some record =>
    if is_token_valid env.startTime (env.probes 0) record then
      some ⟨AuthResult.ok record.access_token, [], [], []⟩
    else
      match record.refresh_token with
      | some rt =>
        match refresh_token env.startTime env.refreshResp rt with
        | some nt =>
          some ⟨AuthResult.ok nt.access_token, [], [nt], [NetCall.tokenRefresh]⟩
        | none =>
          (authenticateFlow env).map
            (fun fr => ⟨fr.result, fr.sleeps, fr.writes, NetCall.tokenRefresh :: fr.calls⟩)
      | none => authenticateFlow env
  | none => authenticateFlow env

/-- Environment for the probe-fails-then-succeeds execution: an unexpired
cached record with a refresh token, first probe GET a transport error,
refresh scripted to fail with a 400, second probe GET (issued by the
re-check inside the nested `authenticate`) a 200. -/
def envProbeFlip : AuthEnv :=
  ⟨some ⟨"cached", some "r", none⟩, fun k => if k = 0 then none else some 200,
   some ⟨400, none, none, none⟩, some ⟨"dc", "uc", "url", none, 1000, 5⟩,
   [some (grantResp "fresh")], 0⟩

/-- Claim C4 is false on the code: on `envProbeFlip` the first validity
probe fails and the refresh fails, so step 3 is reached — but the code
reaches it through `authenticate`, whose own re-check (lines 62-66 of
`auth.rs`) issues a fresh probe GET that now succeeds.  The call returns
the *cached* access token with no device-code request, while the claim's
strict three-step fallback (step 3 = the full device flow) would run the
flow and return the freshly granted token. -/
theorem claim4_counterexample :
    get_access_token envProbeFlip =
      some ⟨AuthResult.ok "cached", [], [], [NetCall.tokenRefresh]⟩ ∧
    getAccessTokenSpec envProbeFlip =
      some ⟨AuthResult.ok "fresh", [5], [⟨"fresh", none, none⟩],
        [NetCall.tokenRefresh, NetCall.deviceCode, NetCall.tokenPoll]⟩ ∧
    get_access_token envProbeFlip ≠ getAccessTokenSpec envProbeFlip := by
  refine ⟨rfl, rfl, ?_⟩
  decide

/-- Claim C4 amended: `get_access_token` follows the strict reuse →
refresh → re-authentication order, but the final step is the
`authenticate` of the code, which re-checks the persisted record with a
fresh probe GET.  Every run either realises the spec's three-step
behavior exactly, or is a probe flip: the first validity check failed,
the fresh probe of the nested re-check succeeded, and the call returns
the cached access token — with only the failed refresh call when one was
attempted — instead of running the device flow. -/
theorem claim4_amended (env : AuthEnv) :
    get_access_token env = getAccessTokenSpec env ∨
    ∃ t, env.loadResult = some t ∧
      is_token_valid env.startTime (env.probes 0) t = false ∧
      is_token_valid env.startTime (env.probes 1) t = true ∧
      ((t.refresh_token = none ∧
          get_access_token env = some ⟨AuthResult.ok t.access_token, [], [], []⟩) ∨
        ∃ rt, t.refresh_token = some rt ∧
          refresh_token env.startTime env.refreshResp rt = none ∧
          get_access_token env =
            some ⟨AuthResult.ok t.access_token, [], [], [NetCall.tokenRefresh]⟩) := by
  cases hl : env.loadResult with
  | none =>
    left
    simp [get_access_token, getAccessTokenSpec, hl,
      authenticateAt_eq_flow_of_noload env 0 hl]
  | some t =>
    cases hv0 : is_token_valid env.startTime (env.probes 0) t with
    | true =>
      left
      simp [get_access_token, getAccessTokenSpec, hl, hv0]
    | false =>
      cases hrt : t.refresh_token with
      | some rt =>
        cases hra : refresh_token env.startTime env.refreshResp rt with
        | some nt =>
          left
          simp [get_access_token, getAccessTokenSpec, hl, hv0, hrt, hra]
        | none =>
          cases hpi : probeIssued env.startTime t with
          | false =>
            left
            have hv1 := is_token_valid_of_not_issued env.startTime
              (env.probes (probesUsed env.startTime t)) t hpi
            simp [get_access_token, getAccessTokenSpec, hl, hv0, hrt, hra,
              authenticateAt_eq_flow_of_invalid env t _ hl hv1]
          | true =>
            have hk : probesUsed env.startTime t = 1 := by simp [probesUsed, hpi]
            cases hv1 : is_token_valid env.startTime (env.probes 1) t with
            | false =>
              left
              simp [get_access_token, getAccessTokenSpec, hl, hv0, hrt, hra, hk,
                authenticateAt_eq_flow_of_invalid env t 1 hl hv1]
            | true =>
              right
              refine ⟨t, rfl, hv0, hv1, Or.inr ⟨rt, hrt, hra, ?_⟩⟩
              simp [get_access_token, hl, hv0, hrt, hra, hk,
                authenticateAt_cached env t 1 hl hv1]
      | none =>
        cases hpi : probeIssued env.startTime t with
        | false =>
          left
          have hv1 := is_token_valid_of_not_issued env.startTime
            (env.probes (probesUsed env.startTime t)) t hpi
          simp [get_access_token, getAccessTokenSpec, hl, hv0, hrt,
            authenticateAt_eq_flow_of_invalid env t _ hl hv1]
        | true =>
          have hk : probesUsed env.startTime t = 1 := by simp [probesUsed, hpi]
          cases hv1 : is_token_valid env.startTime (env.probes 1) t with
          | false =>
            left
            simp [get_access_token, getAccessTokenSpec, hl, hv0, hrt, hk,
              authenticateAt_eq_flow_of_invalid env t 1 hl hv1]
          | true =>
            right
            refine ⟨t, rfl, hv0, hv1, Or.inl ⟨hrt, ?_⟩⟩
            simp [get_access_token, hl, hv0, hrt, hk,
              authenticateAt_cached env t 1 hl hv1]

theorem pollLoop_transport (interval deadline now : Nat)
    (rest : List (Option TokenPollResponse)) (h : ¬ now > deadline) :
    pollLoop interval deadline now (none :: rest) =
      some ⟨AuthResult.errTransport, [interval], [], [NetCall.tokenPoll]⟩ := by
  rw [pollLoop.eq_def]
  simp [h]

theorem pollLoop_denied (interval deadline now : Nat) (r : TokenPollResponse)
    (rest : List (Option TokenPollResponse)) (e : String)
    (h : ¬ now > deadline) (he : r.error = some e)
    (hp : e ≠ "authorization_pending") (hs : e ≠ "slow_down") :
    pollLoop interval deadline now (some r :: rest) =
      some ⟨AuthResult.errAuthorizationDenied e, [interval], [], [NetCall.tokenPoll]⟩ := by
  rw [pollLoop.eq_def]
  simp [h, he, hp, hs]

theorem pollLoop_emptyResp (interval deadline now : Nat) (r : TokenPollResponse)
    (rest : List (Option TokenPollResponse))
    (h : ¬ now > deadline) (he : r.error = none) (ha : r.access_token = none) :
    pollLoop interval deadline now (some r :: rest) =
      (pollLoop interval deadline (now + interval) rest).map (prependPoll interval) := by
  rw [pollLoop.eq_def]
  simp [h, he, ha]

/-- Whenever the poll loop ends with the device-code-expired error, it has
persisted nothing. -/
theorem pollLoop_expired_no_writes (interval deadline : Nat) :
    ∀ (now : Nat) (script : List (Option TokenPollResponse)) (fr : FlowResult),
      pollLoop interval deadline now script = some fr →
      fr.result = AuthResult.errDeviceCodeExpired → fr.writes = [] := by
  intro now script
  induction script generalizing now with
  | nil =>
    intro fr h _
    by_cases hd : now > deadline
    · rw [pollLoop_deadline _ _ _ _ hd] at h
      cases h
      rfl
    · rw [pollLoop.eq_def] at h
      simp [hd] at h
  | cons o rest ih =>
    intro fr h hres
    by_cases hd : now > deadline
    · rw [pollLoop_deadline _ _ _ _ hd] at h
      cases h
      rfl
    · cases o with
      | none =>
        rw [pollLoop_transport _ _ _ _ hd] at h
        cases h
        simp at hres
      | some r =>
        cases he : r.error with
        | some e =>
          by_cases hp : e = "authorization_pending"
          · subst hp
            rw [pollLoop_pending _ _ _ _ _ hd he] at h
            cases hrec : pollLoop interval deadline (now + interval) rest with
            | none => rw [hrec] at h; cases h
            | some fr0 =>
              rw [hrec] at h
              cases h
              exact ih (now + interval) fr0 hrec hres
          · by_cases hs : e = "slow_down"
            · subst hs
              rw [pollLoop_slow _ _ _ _ _ hd he] at h
              cases hrec : pollLoop interval deadline (now + interval + 2 * interval) rest with
              | none => rw [hrec] at h; cases h
              | some fr0 =>
                rw [hrec] at h
                cases h
                exact ih (now + interval + 2 * interval) fr0 hrec hres
            · rw [pollLoop_denied _ _ _ _ _ _ hd he hp hs] at h
              cases h
              simp at hres
        | none =>
          cases ha : r.access_token with
          | some tk =>
            rw [pollLoop_grant _ _ _ _ _ _ hd he ha] at h
            cases h
            simp at hres
          | none =>
            rw [pollLoop_emptyResp _ _ _ _ _ hd he ha] at h
            cases hrec : pollLoop interval deadline (now + interval) rest with
            | none => rw [hrec] at h; cases h
            | some fr0 =>
              rw [hrec] at h
              cases h
              exact ih (now + interval) fr0 hrec hres

/-- Lift of `pollLoop_expired_no_writes` through `authenticateFlow`. -/
theorem authenticateFlow_expired_no_writes (env : AuthEnv) (fr : FlowResult)
    (h : authenticateFlow env = some fr)
    (hres : fr.result = AuthResult.errDeviceCodeExpired) : fr.writes = [] := by
  cases hd : env.deviceResp with
  | none =>
    simp only [authenticateFlow, hd] at h
    cases h
    simp at hres
  | some d =>
    simp only [authenticateFlow, hd] at h
    cases hrec : pollLoop d.interval (env.startTime + d.expires_in) env.startTime
        env.pollScript with
    | none => rw [hrec] at h; cases h
    | some fr0 =>
      rw [hrec] at h
      simp only [Option.map] at h
      cases h
      exact pollLoop_expired_no_writes _ _ _ _ fr0 hrec hres

/-- Claim C5: (a) a deadline check that sees `now > deadline` makes the
loop return the device-code-expired error at once, with no sleep, no
write and no further call; (b) whenever a whole `authenticate` run ends
with the device-code-expired error, no `TokenData` was persisted. -/
theorem claim5_expiry_no_write :
    (∀ (interval deadline now : Nat) (script : List (Option TokenPollResponse)),
        now > deadline →
        pollLoop interval deadline now script =
          some ⟨AuthResult.errDeviceCodeExpired, [], [], []⟩) ∧
    (∀ (env : AuthEnv) (fr : FlowResult),
        authenticate env = some fr →
        fr.result = AuthResult.errDeviceCodeExpired → fr.writes = []) := by
  constructor
  · exact fun i d n s h => pollLoop_deadline i d n s h
  · intro env fr h hres
    cases hl : env.loadResult with
    | none =>
      simp only [authenticate, authenticateAt, hl] at h
      exact authenticateFlow_expired_no_writes env fr h hres
    | some t =>
      by_cases hv : is_token_valid env.startTime (env.probes 0) t
      · simp only [authenticate, authenticateAt, hl, hv, if_true] at h
        cases h
        simp at hres
      · simp only [authenticate, authenticateAt, hl] at h
        rw [if_neg hv] at h
        exact authenticateFlow_expired_no_writes env fr h hres

/-- Environment: the device code expires immediately (`expires_in = 0`),
one pending reply scripted. -/
def envExpiry : AuthEnv :=
  ⟨none, fun _ => none, none, some ⟨"dc", "uc", "url", none, 0, 1⟩, [some pendingResp], 0⟩

/-- Witness for `claim5_expiry_no_write`: part (a) at concrete arguments,
and part (b) at the run of `envExpiry`, which ends expired after one poll. -/
theorem claim5_witness :
    pollLoop 1 0 1 [] = some ⟨AuthResult.errDeviceCodeExpired, [], [], []⟩ ∧
    (FlowResult.mk AuthResult.errDeviceCodeExpired [1] []
      [NetCall.deviceCode, NetCall.tokenPoll]).writes = ([] : List TokenData) :=
  ⟨claim5_expiry_no_write.1 1 0 1 [] (by decide),
   claim5_expiry_no_write.2 envExpiry
     ⟨AuthResult.errDeviceCodeExpired, [1], [], [NetCall.deviceCode, NetCall.tokenPoll]⟩
     rfl rfl⟩

/-- Claim C6: a poll response with a populated error field is handled
exactly as the same error with every other field absent — the match on
`token_data.error` (lines 130-146 of `auth.rs`) fires before the
access_token is ever examined, so a response carrying both an error and
an access token is treated as pending / slow-down / denied according to
the error, never as a grant, and persists nothing from that response. -/
theorem claim6_error_precedence (interval deadline now : Nat) (r : TokenPollResponse)
    (rest : List (Option TokenPollResponse)) (e tk : String)
    (he : r.error = some e) (_ha : r.access_token = some tk) :
    pollLoop interval deadline now (some r :: rest) =
      pollLoop interval deadline now (some ⟨none, none, none, some e⟩ :: rest) := by
  rw [pollLoop.eq_def, pollLoop.eq_def]
  simp [he]

/-- Witness for `claim6_error_precedence`: a slow-down reply carrying an
access token is processed like a bare slow-down reply. -/
theorem claim6_witness :
    pollLoop 1 100 0 [some ⟨some "tok", some "rt", some 9, some "slow_down"⟩] =
      pollLoop 1 100 0 [some ⟨none, none, none, some "slow_down"⟩] :=
  claim6_error_precedence 1 100 0 ⟨some "tok", some "rt", some 9, some "slow_down"⟩ []
    "slow_down" "tok" rfl rfl

/-- Claim C7: `is_token_valid` accepts exactly when the stored expiry is
absent or strictly in the future and the authenticated probe returned a
2xx status; an expired record is always rejected, and a failed or
transport-errored probe always rejects. -/
theorem claim7_validity (now : Nat) (probe : Option Nat) (tok : TokenData) :
    is_token_valid now probe tok = true ↔
      ((tok.expires_at = none ∨ ∃ e, tok.expires_at = some e ∧ now < e) ∧
       ∃ s, probe = some s ∧ 200 ≤ s ∧ s < 300) := by
  cases he : tok.expires_at with
  | none =>
    cases probe with
    | none => simp [is_token_valid, probeSucceeds, he]
    | some s => simp [is_token_valid, probeSucceeds, isSuccessStatus, he]
  | some e =>
    by_cases hne : now ≥ e
    · simp [is_token_valid, probeSucceeds, he, hne]
    · cases probe with
      | none => simp [is_token_valid, probeSucceeds, he, hne]
      | some s =>
        simp [is_token_valid, probeSucceeds, isSuccessStatus, he, hne]
        omega

/-- Witness for `claim7_validity` at a concrete record and probe. -/
theorem claim7_witness :
    is_token_valid 5 (some 200) ⟨"a", none, some 10⟩ = true ↔
      (((TokenData.mk "a" none (some 10)).expires_at = none ∨
        ∃ e, (TokenData.mk "a" none (some 10)).expires_at = some e ∧ 5 < e) ∧
       ∃ s, (some 200 : Option Nat) = some s ∧ 200 ≤ s ∧ s < 300) :=
  claim7_validity 5 (some 200) ⟨"a", none, some 10⟩

/-- Claim C8: when reading the token file fails in any way (missing,
unreadable, unparseable — all are `Err` from `load_token`), the
`if let Ok(token)` of `get_access_token` (line 210 of `auth.rs`) skips
the reuse and refresh steps, and the call behaves exactly as
`authenticate`: the read error is never surfaced. -/
theorem claim8_load_error_falls_through (env : AuthEnv) (h : env.loadResult = none) :
    get_access_token env = authenticate env := by
  simp [get_access_token, authenticate, h]

/-- Environment: no readable token file, a working device flow. -/
def envNoToken : AuthEnv :=
  ⟨none, fun _ => none, none, some ⟨"dc", "uc", "url", none, 300, 5⟩,
   [some (grantResp "tok")], 0⟩

/-- Witness for `claim8_load_error_falls_through` on `envNoToken`. -/
theorem claim8_witness : get_access_token envNoToken = authenticate envNoToken :=
  claim8_load_error_falls_through envNoToken rfl

/-- Claim C10: a poll response with neither an error nor an access token
falls through both guards of the loop body (lines 130 and 148 of
`auth.rs`) and is handled exactly like an authorization_pending reply:
the loop continues, re-checks the deadline and sleeps again. -/
theorem claim10_empty_response_pends (interval deadline now : Nat) (r : TokenPollResponse)
    (rest : List (Option TokenPollResponse))
    (he : r.error = none) (ha : r.access_token = none) :
    pollLoop interval deadline now (some r :: rest) =
      pollLoop interval deadline now (some pendingResp :: rest) := by
  rw [pollLoop.eq_def, pollLoop.eq_def]
  simp [he, ha, pendingResp]

/-- Witness for `claim10_empty_response_pends`: a reply carrying only a
refresh token and a lifetime is processed like a bare pending reply. -/
theorem claim10_witness :
    pollLoop 1 10 0 [some ⟨none, some "x", some 5, none⟩] =
      pollLoop 1 10 0 [some pendingResp] :=
  claim10_empty_response_pends 1 10 0 ⟨none, some "x", some 5, none⟩ [] rfl rfl

/-- The claim's invariant on a run: every persisted record has a
non-empty access token. -/
def writesNonEmpty (fr : FlowResult) : Bool :=
  fr.writes.all (fun t => !(t.access_token == ""))

/-- A scripted poll response whose access token, when present, is non-empty. -/
def pollRespNonEmpty : Option TokenPollResponse → Bool
  | none => true
  | some r =>
    match r.access_token with
    | some tk => !(tk == "")
    | none => true

/-- A scripted refresh response whose access token, when present, is non-empty. -/
def refreshRespNonEmpty : Option RefreshResponse → Bool
  | none => true
  | some r =>
    match r.access_token with
    | some tk => !(tk == "")
    | none => true

/-- Environment: the device flow is granted with an empty-string access token. -/
def envEmptyGrant : AuthEnv :=
  ⟨none, fun _ => none, none, some ⟨"dc", "uc", "url", none, 300, 5⟩,
   [some (grantResp "")], 0⟩

/-- Claim C9 is false on the code: lines 148-163 of `auth.rs` guard only
on the presence of `access_token`, never on its emptiness, so a grant
response carrying the empty string is persisted as a record with an
empty access_token. -/
theorem claim9_counterexample :
    authenticate envEmptyGrant =
      some ⟨AuthResult.ok "", [5], [⟨"", none, none⟩],
        [NetCall.deviceCode, NetCall.tokenPoll]⟩ ∧
    writesNonEmpty ⟨AuthResult.ok "", [5], [⟨"", none, none⟩],
      [NetCall.deviceCode, NetCall.tokenPoll]⟩ = false := by
  exact ⟨rfl, rfl⟩

/-- Every record the poll loop persists takes its access token verbatim
from a scripted response; when every scripted access token is non-empty,
so is every persisted one. -/
theorem pollLoop_writes_nonempty (interval deadline : Nat) :
    ∀ (now : Nat) (script : List (Option TokenPollResponse)) (fr : FlowResult),
      script.all pollRespNonEmpty = true →
      pollLoop interval deadline now script = some fr →
      ∀ t ∈ fr.writes, t.access_token ≠ "" := by
  intro now script
  induction script generalizing now with
  | nil =>
    intro fr _ h
    by_cases hd : now > deadline
    · rw [pollLoop_deadline _ _ _ _ hd] at h
      cases h
      simp
    · rw [pollLoop.eq_def] at h
      simp [hd] at h
  | cons o rest ih =>
    intro fr hall h
    rw [List.all_cons, Bool.and_eq_true] at hall
    by_cases hd : now > deadline
    · rw [pollLoop_deadline _ _ _ _ hd] at h
      cases h
      simp
    · cases o with
      | none =>
        rw [pollLoop_transport _ _ _ _ hd] at h
        cases h
        simp
      | some r =>
        cases he : r.error with
        | some e =>
          by_cases hp : e = "authorization_pending"
          · subst hp
            rw [pollLoop_pending _ _ _ _ _ hd he] at h
            cases hrec : pollLoop interval deadline (now + interval) rest with
            | none => rw [hrec] at h; cases h
            | some fr0 =>
              rw [hrec] at h
              cases h
              exact ih (now + interval) fr0 hall.2 hrec
          · by_cases hs : e = "slow_down"
            · subst hs
              rw [pollLoop_slow _ _ _ _ _ hd he] at h
              cases hrec : pollLoop interval deadline (now + interval + 2 * interval) rest with
              | none => rw [hrec] at h; cases h
              | some fr0 =>
                rw [hrec] at h
                cases h
                exact ih (now + interval + 2 * interval) fr0 hall.2 hrec
            · rw [pollLoop_denied _ _ _ _ _ _ hd he hp hs] at h
              cases h
              simp
        | none =>
          cases ha : r.access_token with
          | some tk =>
            rw [pollLoop_grant _ _ _ _ _ _ hd he ha] at h
            cases h
            have hne : tk ≠ "" := by
              have := hall.1
              simp only [pollRespNonEmpty, ha] at this
              simpa using this
            simp [hne]
          | none =>
            rw [pollLoop_emptyResp _ _ _ _ _ hd he ha] at h
            cases hrec : pollLoop interval deadline (now + interval) rest with
            | none => rw [hrec] at h; cases h
            | some fr0 =>
              rw [hrec] at h
              cases h
              exact ih (now + interval) fr0 hall.2 hrec

/-- Lift of `pollLoop_writes_nonempty` through `authenticateFlow`. -/
theorem authenticateFlow_writes_nonempty (env : AuthEnv) (fr : FlowResult)
    (hp : env.pollScript.all pollRespNonEmpty = true)
    (h : authenticateFlow env = some fr) :
    ∀ t ∈ fr.writes, t.access_token ≠ "" := by
  cases hd : env.deviceResp with
  | none =>
    simp only [authenticateFlow, hd] at h
    cases h
    simp
  | some d =>
    simp only [authenticateFlow, hd] at h
    cases hrec : pollLoop d.interval (env.startTime + d.expires_in) env.startTime
        env.pollScript with
    | none => rw [hrec] at h; cases h
    | some fr0 =>
      rw [hrec] at h
      simp only [Option.map] at h
      cases h
      exact pollLoop_writes_nonempty _ _ _ _ fr0 hp hrec

/-- Lift of the non-emptiness invariant through `authenticateAt` (at any
probe index: the cached early return writes nothing). -/
theorem authenticateAt_writes_nonempty (env : AuthEnv) (k : Nat) (fr : FlowResult)
    (hp : env.pollScript.all pollRespNonEmpty = true)
    (h : authenticateAt env k = some fr) :
    ∀ t ∈ fr.writes, t.access_token ≠ "" := by
  cases hl : env.loadResult with
  | none =>
    simp only [authenticateAt, hl] at h
    exact authenticateFlow_writes_nonempty env fr hp h
  | some t =>
    by_cases hv : is_token_valid env.startTime (env.probes k) t
    · simp only [authenticateAt, hl, hv, if_true] at h
      cases h
      simp
    · simp only [authenticateAt, hl] at h
      rw [if_neg hv] at h
      exact authenticateFlow_writes_nonempty env fr hp h

/-- The record a successful refresh persists has a non-empty access token
whenever the refresh response's is non-empty. -/
theorem refresh_token_nonempty (now : Nat) (resp : Option RefreshResponse) (rt : String)
    (nt : TokenData) (hr : refreshRespNonEmpty resp = true)
    (h : refresh_token now resp rt = some nt) : nt.access_token ≠ "" := by
  cases resp with
  | none => simp [refresh_token] at h
  | some r =>
    simp only [refresh_token] at h
    by_cases hs : isSuccessStatus r.status = true
    · rw [if_pos hs] at h
      cases ha : r.access_token with
      | none => rw [ha] at h; cases h
      | some tk =>
        rw [ha] at h
        cases h
        have := hr
        simp only [refreshRespNonEmpty, ha] at this
        simpa using this
    · rw [if_neg hs] at h
      cases h

/-- Claim C9 amended: every persisted record takes its access token
verbatim from the response that produced it; the code never checks
emptiness, but whenever every scripted grant and refresh access token is
non-empty, every record `get_access_token` persists has a non-empty
access_token. -/
theorem claim9_amended (env : AuthEnv) (fr : FlowResult)
    (hp : env.pollScript.all pollRespNonEmpty = true)
    (hr : refreshRespNonEmpty env.refreshResp = true)
    (h : get_access_token env = some fr) :
    ∀ t ∈ fr.writes, t.access_token ≠ "" := by
  cases hl : env.loadResult with
  | none =>
    simp only [get_access_token, hl] at h
    exact authenticateAt_writes_nonempty env 0 fr hp h
  | some t =>
    by_cases hv : is_token_valid env.startTime (env.probes 0) t
    · simp only [get_access_token, hl, hv, if_true] at h
      cases h
      simp
    · cases hrt : t.refresh_token with
      | none =>
        simp only [get_access_token, hl, hrt] at h
        rw [if_neg hv] at h
        exact authenticateAt_writes_nonempty env (probesUsed env.startTime t) fr hp h
      | some rt =>
        cases hra : refresh_token env.startTime env.refreshResp rt with
        | some nt =>
          simp only [get_access_token, hl, hrt] at h
          rw [if_neg hv] at h
          simp only [hra] at h
          cases h
          have := refresh_token_nonempty env.startTime env.refreshResp rt nt hr hra
          simp [this]
        | none =>
          simp only [get_access_token, hl, hrt] at h
          rw [if_neg hv] at h
          simp only [hra] at h
          cases hrec : authenticateAt env (probesUsed env.startTime t) with
          | none => rw [hrec] at h; cases h
          | some fr0 =>
            rw [hrec] at h
            simp only [Option.map] at h
            cases h
            exact authenticateAt_writes_nonempty env (probesUsed env.startTime t) fr0 hp hrec

/-- Witness for `claim9_amended` on `envNoToken`, whose single grant
persists the record with access token "tok". -/
theorem claim9_witness : (TokenData.mk "tok" none none).access_token ≠ "" :=
  claim9_amended envNoToken
    ⟨AuthResult.ok "tok", [5], [⟨"tok", none, none⟩], [NetCall.deviceCode, NetCall.tokenPoll]⟩
    (by decide) (by decide) rfl ⟨"tok", none, none⟩ (by simp)
